import Mathlib

/-!
Verification of the reverse-image-search notebook logic: a shallow embedding of
the embedding gateway, the ingestion loop, the index write loop, the region
extractor, the bounding-box drawer, the KNN result deduplication and the resize
step, with theorems settling the specification claims about them.

Conventions: Python floats are modelled as rationals, byte strings as lists of
naturals, Python exceptions as the error side of Except, and the remote AWS
services as explicit function parameters (oracles) so that the notebook control
flow is embedded exactly.
-/

/-- Bytes of an image file, modelled as a list of naturals. -/
abbrev Bytes := List Nat

/-- Python int(x) truncates toward zero: floor for nonnegative values and
ceiling for negative ones. -/
def pyInt (q : ℚ) : ℤ :=
  if 0 ≤ q then ⌊q⌋ else ⌈q⌉

/-- Python membership test on strings, needle in hay, is substring containment
(the empty needle is contained in every string). -/
def pyInStr (needle hay : String) : Bool :=
  decide (needle.toList <:+: hay.toList)

/-! ## Embedding gateway: create_image_embedding

The notebook function builds the request body as a JSON object whose only field
is inputImage, invokes the Bedrock model, reads the JSON response, looks at its
message field (printing it when present), and returns its embedding field. The
remote invoke_model call is a parameter; the function also returns the list of
request payloads it issued, so that theorems can speak about which inputs reach
the network. -/

/-- The JSON payload the Bedrock model answers with: an embedding field on
success, a message field on a model-side error. -/
structure BedrockResponse where
  message : Option String
  embedding : Option (List ℚ)
deriving DecidableEq, Repr

/-- create_image_embedding from the notebook. Given the remote service
invoke_model (which may itself raise) and the optional base64 image string, it
raises ValueError when the image is missing; otherwise it issues exactly one
invoke_model call with the inputImage payload and returns the embedding field
of the parsed response. A response carrying a message only gets printed: the
function still falls through to return the embedding field, so the returned
value is none whenever the payload has no embedding. The second component is
the trace of request payloads sent to the network. -/
def create_image_embedding (invoke_model : String → Except String BedrockResponse)
    (image : Option String) : Except String (Option (List ℚ)) × List String :=
  match image with
  | none => (Except.error "Image input is required", [])
  | some img =>
    match invoke_model img with
    | Except.error e => (Except.error e, [img])
    | Except.ok final_response => (Except.ok final_response.embedding, [img])

/-! ## Ingestion loop over the S3 bucket contents

Cell 2.2 loops over the listed objects; each iteration reads the object bytes,
resizes them, base64-encodes the result, generates the embedding through
create_image_embedding, and appends the embedding and the key to two parallel
lists. No exception handling surrounds the loop, so the first raising step
aborts it, keeping the appends of the completed iterations. -/

/-- The external effects the loop depends on: reading an object from S3,
resize_image (PIL decode, thumbnail and JPEG re-encode, any of which may
raise), and the Bedrock invoke_model call. base64.b64encode never raises. -/
structure IngestEnv where
  s3get : String → Except String Bytes
  resize_image : Bytes → Except String Bytes
  b64encode : Bytes → String
  invoke_model : String → Except String BedrockResponse

/-- The two parallel accumulator lists of cell 2.2. -/
structure LoopState where
  image_embeddings : List (Option (List ℚ))
  image_file_names : List String
deriving DecidableEq, Repr

/-- One iteration of the ingestion loop for the object with the given key:
get_object, resize_image, b64encode, create_image_embedding, then append the
embedding and the key. Any raising step makes the whole iteration raise. -/
def ingest_body (env : IngestEnv) (st : LoopState) (key : String) :
    Except String LoopState :=
  match env.s3get key with
  | Except.error e => Except.error e
  | Except.ok image_data =>
    match env.resize_image image_data with
    | Except.error e => Except.error e
    | Except.ok resized_image =>
      match (create_image_embedding env.invoke_model
            (some (env.b64encode resized_image))).1 with
      | Except.error e => Except.error e
      | Except.ok image_embedding =>
        Except.ok ⟨st.image_embeddings ++ [image_embedding],
                   st.image_file_names ++ [key]⟩

/-- The ingestion loop: iterate ingest_body over the listed keys. An iteration
that raises stops the loop; the state reached so far is kept (the Python lists
survive the exception) and the error is reported alongside. -/
def ingest_loop (env : IngestEnv) : LoopState → List String →
    LoopState × Option String
  | st, [] => (st, none)
  | st, key :: rest =>
    match ingest_body env st key with
    | Except.error e => (st, some e)
    | Except.ok st2 => ingest_loop env st2 rest

/-- The value the loop body computes for a single key when every step of its
pipeline succeeds (none when some step raises). -/
def itemEmbedding (env : IngestEnv) (key : String) : Option (Option (List ℚ)) :=
  match env.s3get key with
  | Except.error _ => none
  | Except.ok image_data =>
    match env.resize_image image_data with
    | Except.error _ => none
    | Except.ok resized_image =>
      match (create_image_embedding env.invoke_model
            (some (env.b64encode resized_image))).1 with
      | Except.error _ => none
      | Except.ok image_embedding => some image_embedding

/-- Cell 2.3: the dataframe rows pairing each stored key with the embedding at
the same position of the parallel list. -/
def final_embeddings_dataset (st : LoopState) :
    List (String × Option (List ℚ)) :=
  st.image_file_names.zip st.image_embeddings

/-! ## Index write loop (cell 3.3)

Cell 3.3 iterates over the dataframe rows and calls client.index with a body of
two fields, the vector field holding the embedding and the mapping field
holding the image key, and passes no document id. The OpenSearch write
interface is external; following its interface description, a write that
supplies a document id replaces any document with that id, while a write that
supplies none makes the service assign a fresh id and store a new document. -/

/-- A document stored in the vector index: the service-assigned id, the vector
field and the mapping field. -/
structure IndexedDoc where
  docId : Nat
  vectorField : Option (List ℚ)
  mappingField : String
deriving DecidableEq, Repr

/-- Modelled from the spec: the vector index write interface, which src only
calls and does not implement. index(key-or-id, document) upserts when a
document id is supplied (replacing any existing document with that id) and
otherwise stores the document under a fresh auto-assigned id, never touching
existing documents. Fresh ids are taken above every id in the store. -/
def client_index (st : List IndexedDoc) (docId : Option Nat)
    (vec : Option (List ℚ)) (mapping : String) : List IndexedDoc :=
  match docId with
  | some i => st.filter (fun d => d.docId ≠ i) ++ [⟨i, vec, mapping⟩]
  | none => st ++ [⟨(st.map IndexedDoc.docId).foldr max 0 + 1, vec, mapping⟩]

/-- The ingestion-to-index loop of cell 3.3: for each dataframe record, one
client.index call with body {vector field, mapping field} and no document
id. -/
def index_ingest_loop (records : List (String × Option (List ℚ)))
    (st : List IndexedDoc) : List IndexedDoc :=
  match records with
  | [] => st
  | record :: rest =>
    index_ingest_loop rest (client_index st none record.2 record.1)

/-! ## Region extraction (cell 4.3) and box drawing (cell 4.2)

Both functions loop over zip(boxes, labels) and skip a pair when
label not in "Shoe" holds, that is when the label is not a substring of the
string Shoe. extract_objects converts the kept box to an integer pixel
rectangle with int() truncation and crops it; draw_bounding_box draws the
float rectangle. Both embeddings return the record of what each kept
iteration did, including the pair it acted on. -/

/-- A detector bounding box, normalized to image dimensions. Field names follow
the Rekognition payload. -/
structure BoundingBox where
  Left : ℚ
  Top : ℚ
  Width : ℚ
  Height : ℚ
deriving DecidableEq, Repr

/-- One saved crop of extract_objects: the (box, label) pair the iteration
consumed, the integer rectangle passed to image.crop, and the output file
name extract_N.jpg numbered by crop_count. -/
structure ExtractedCrop where
  srcBox : BoundingBox
  label : String
  cropRect : ℤ × ℤ × ℤ × ℤ
  fileName : String
deriving DecidableEq, Repr

/-- The loop of extract_objects over zip(boxes, labels), threading crop_count
(starting at 1 and incremented once per kept pair). A pair whose label is not
a substring of Shoe is skipped; a kept pair yields the crop rectangle
(left, top, left + int-width, top + int-height) where each component applies
int() to the product of an image dimension and a box coordinate. -/
def extract_objects_go (W H : ℕ) : ℕ → List (BoundingBox × String) →
    List ExtractedCrop
  | _, [] => []
  | crop_count, (box, label) :: rest =>
    if pyInStr label "Shoe" then
      let left := pyInt ((W : ℚ) * box.Left)
      let top := pyInt ((H : ℚ) * box.Top)
      let right := left + pyInt ((W : ℚ) * box.Width)
      let bottom := top + pyInt ((H : ℚ) * box.Height)
      ⟨box, label, (left, top, right, bottom),
        "extract_" ++ toString crop_count ++ ".jpg"⟩ ::
        extract_objects_go W H (crop_count + 1) rest
    else
      extract_objects_go W H crop_count rest

/-- extract_objects from cell 4.3 on an image of pixel size W by H: zip the
boxes with the labels and run the crop loop with crop_count starting at 1. -/
def extract_objects (W H : ℕ) (boxes : List BoundingBox)
    (labels : List String) : List ExtractedCrop :=
  extract_objects_go W H 1 (boxes.zip labels)

/-- One rectangle drawn by draw_bounding_box: the (box, label) pair and the
float rectangle [left, top, left + width, top + height] given to
draw.rectangle. -/
structure DrawnRect where
  srcBox : BoundingBox
  label : String
  rect : ℚ × ℚ × ℚ × ℚ
deriving DecidableEq, Repr

/-- The loop of draw_bounding_box over zip(boxes, labels): a pair whose label
is not a substring of Shoe is skipped by continue; a kept pair has its float
pixel rectangle drawn (no int() truncation here). -/
def draw_bounding_box_go (W H : ℕ) : List (BoundingBox × String) →
    List DrawnRect
  | [] => []
  | (box, label) :: rest =>
    if pyInStr label "Shoe" then
      let left := (W : ℚ) * box.Left
      let top := (H : ℚ) * box.Top
      let width := (W : ℚ) * box.Width
      let height := (H : ℚ) * box.Height
      ⟨box, label, (left, top, left + width, top + height)⟩ ::
        draw_bounding_box_go W H rest
    else
      draw_bounding_box_go W H rest

/-- draw_bounding_box from cell 4.2 on an image of pixel size W by H. -/
def draw_bounding_box (W H : ℕ) (boxes : List BoundingBox)
    (labels : List String) : List DrawnRect :=
  draw_bounding_box_go W H (boxes.zip labels)

/-! ## KNN result deduplication (cell 6.1)

The response loop reads each hit, and appends [item_id_, score] to result only
when the score is not yet in the scores_tracked set, adding it to the set when
the hit is kept. -/

/-- One raw hit of the KNN response: the document id, the similarity score and
the mapping-field value (the original image key). -/
structure KnnHit where
  id_ : String
  score : ℚ
  item : String
deriving DecidableEq, Repr

/-- The dedup loop of cell 6.1: scores_tracked is the set of scores of the
hits already appended to result (modelled as the list of those scores; only
membership is used). -/
def knn_dedup_go (scores_tracked : List ℚ) : List KnnHit →
    List (String × ℚ)
  | [] => []
  | hit :: rest =>
    if hit.score ∈ scores_tracked then
      knn_dedup_go scores_tracked rest
    else
      (hit.item, hit.score) :: knn_dedup_go (hit.score :: scores_tracked) rest

/-- The result list built by cell 6.1 from the raw hit sequence, starting from
an empty scores_tracked set. -/
def knn_results (hits : List KnnHit) : List (String × ℚ) :=
  knn_dedup_go [] hits

/-- The spec-side characterization: keep a hit exactly when its score did not
occur among the earlier hits of the sequence (seen accumulates the score of
every hit, kept or not). -/
def first_score_occurrences (seen : List ℚ) : List KnnHit →
    List (String × ℚ)
  | [] => []
  | hit :: rest =>
    if hit.score ∈ seen then
      first_score_occurrences (hit.score :: seen) rest
    else
      (hit.item, hit.score) :: first_score_occurrences (hit.score :: seen) rest

/-! ## Image resize (cell 2.1)

resize_image decodes the bytes with PIL, calls image.thumbnail((MAX_WIDTH,
MAX_HEIGHT)) and re-encodes as JPEG. The dimension computation happens inside
the external PIL call, so it is modelled from the spec. -/

/-- Modelled from the spec: the common scale factor of the thumbnail resize,
min(maxW/width, maxH/height, 1.0). The PIL thumbnail call that implements the
resize is external to src. -/
def thumbnailScale (maxW maxH w h : ℕ) : ℚ :=
  min (min ((maxW : ℚ) / (w : ℚ)) ((maxH : ℚ) / (h : ℚ))) 1

/-- Modelled from the spec: the output pixel dimensions of resize_image on a
decoded w by h image under maxima maxW by maxH — both dimensions scaled by
the common factor thumbnailScale and rounded down to whole pixels. -/
def resize_image_dims (maxW maxH w h : ℕ) : ℕ × ℕ :=
  ((⌊(w : ℚ) * thumbnailScale maxW maxH w h⌋).toNat,
   (⌊(h : ℚ) * thumbnailScale maxW maxH w h⌋).toNat)

/-- Fixed environment used to exhibit the ingestion behaviour on a failing
middle item: reading b.jpg raises, every other step succeeds. -/
def envB : IngestEnv :=
  { s3get := fun key =>
      if key = "b.jpg" then Except.error "NoSuchKey" else Except.ok [0]
    resize_image := fun image_data => Except.ok image_data
    b64encode := fun _ => "AAAA"
    invoke_model := fun _ => Except.ok ⟨none, some [1]⟩ }

/-- Fixed environment in which every step succeeds, used to evaluate the
ingestion alignment invariant on a concrete run. -/
def envOk : IngestEnv :=
  { s3get := fun _ => Except.ok [7]
    resize_image := fun image_data => Except.ok image_data
    b64encode := fun _ => "Bw=="
    invoke_model := fun _ => Except.ok ⟨none, some [1, 0]⟩ }

/-! ## Helper lemmas -/

/-- Every result emitted by the dedup loop has a score outside the incoming
scores_tracked set. -/
theorem knn_dedup_go_score_not_tracked (hits : List KnnHit) :
    ∀ tracked : List ℚ, ∀ p ∈ knn_dedup_go tracked hits, p.2 ∉ tracked := by
  induction hits with
  | nil => intro tracked p hp; simp [knn_dedup_go] at hp
  | cons hit rest ih =>
    intro tracked p hp
    by_cases h : hit.score ∈ tracked
    · rw [knn_dedup_go, if_pos h] at hp
      exact ih tracked p hp
    · rw [knn_dedup_go, if_neg h] at hp
      rcases List.mem_cons.mp hp with h1 | h1
      · rw [h1]; exact h
      · have := ih (hit.score :: tracked) p h1
        exact fun hc => this (List.mem_cons_of_mem _ hc)

/-- The dedup loop never emits two results with the same score. -/
theorem knn_dedup_go_pairwise (hits : List KnnHit) :
    ∀ tracked : List ℚ,
      (knn_dedup_go tracked hits).Pairwise (fun a b => a.2 ≠ b.2) := by
  induction hits with
  | nil => intro tracked; simp [knn_dedup_go]
  | cons hit rest ih =>
    intro tracked
    by_cases h : hit.score ∈ tracked
    · rw [knn_dedup_go, if_pos h]; exact ih tracked
    · rw [knn_dedup_go, if_neg h]
      refine List.Pairwise.cons ?_ (ih (hit.score :: tracked))
      intro p hp hc
      have := knn_dedup_go_score_not_tracked rest (hit.score :: tracked) p hp
      exact this (by rw [← hc]; exact List.mem_cons_self _ _)

/-- The dedup loop agrees with the spec-side first-occurrence filter whenever
the tracked set and the seen set hold the same scores. -/
theorem knn_dedup_go_eq_first_occurrences (hits : List KnnHit) :
    ∀ tracked seen : List ℚ, (∀ s : ℚ, s ∈ tracked ↔ s ∈ seen) →
      knn_dedup_go tracked hits = first_score_occurrences seen hits := by
  induction hits with
  | nil => intro tracked seen _; rfl
  | cons hit rest ih =>
    intro tracked seen hts
    by_cases h : hit.score ∈ tracked
    · rw [knn_dedup_go, if_pos h, first_score_occurrences,
        if_pos ((hts hit.score).mp h)]
      refine ih tracked (hit.score :: seen) ?_
      intro s
      constructor
      · intro hs; exact List.mem_cons_of_mem _ ((hts s).mp hs)
      · intro hs
        rcases List.mem_cons.mp hs with h1 | h1
        · rw [h1]; exact h
        · exact (hts s).mpr h1
    · rw [knn_dedup_go, if_neg h, first_score_occurrences,
        if_neg (fun hc => h ((hts hit.score).mpr hc))]
      refine congrArg _ (ih (hit.score :: tracked) (hit.score :: seen) ?_)
      intro s
      simp only [List.mem_cons]
      exact or_congr Iff.rfl (hts s)

/-- The dedup loop only filters the hit sequence: its output is a sublist of
the received hits (projected to their item and score). -/
theorem knn_dedup_go_sublist (hits : List KnnHit) :
    ∀ tracked : List ℚ,
      List.Sublist (knn_dedup_go tracked hits) (hits.map (fun h => (h.item, h.score))) := by
  induction hits with
  | nil => intro tracked; simp [knn_dedup_go]
  | cons hit rest ih =>
    intro tracked
    by_cases h : hit.score ∈ tracked
    · rw [knn_dedup_go, if_pos h, List.map_cons]
      exact (ih tracked).cons _
    · rw [knn_dedup_go, if_neg h, List.map_cons]
      exact (ih (hit.score :: tracked)).cons₂ _

/-- Claim C3: the KNN result list built by cell 6.1 carries no two results
with the same score, equals the subsequence of hits whose score did not occur
among the earlier hits of the sequence, and is a sublist of the received hit
order (only filtered, never reordered). -/
theorem knn_results_dedup_spec (hits : List KnnHit) :
    (knn_results hits).Pairwise (fun a b => a.2 ≠ b.2) ∧
    knn_results hits = first_score_occurrences [] hits ∧
    List.Sublist (knn_results hits) (hits.map (fun h => (h.item, h.score))) :=
  ⟨knn_dedup_go_pairwise hits [],
   knn_dedup_go_eq_first_occurrences hits [] [] (fun _ => Iff.rfl),
   knn_dedup_go_sublist hits []⟩

/-- Claim C1: the selection rule of extract_objects is label not in "Shoe",
Python substring containment, not exact equality. On a detection with labels
Shoe, Person and ho the function crops the Shoe box and also the ho box (ho is
a substring of Shoe though not equal to it), numbering them 1 and 2, while the
exact-match contract of the spec would crop only the Shoe box. -/
theorem extract_objects_substring_match_bug :
    ((extract_objects 100 100
        [⟨1/10, 1/10, 1/2, 1/2⟩, ⟨1/10, 1/10, 1/2, 1/2⟩, ⟨1/10, 1/10, 1/2, 1/2⟩]
        ["Shoe", "Person", "ho"]).map (fun c => (c.label, c.fileName))) =
      [("Shoe", "extract_1.jpg"), ("ho", "extract_2.jpg")] ∧
    "ho" ≠ "Shoe" :=
  ⟨by decide, by decide⟩

/-- Both selection loops keep exactly the same (box, label) pairs of the
zipped input, whatever the crop counter starts at. -/
theorem go_same_selection (W H : ℕ) (pairs : List (BoundingBox × String)) :
    ∀ n : ℕ,
      (draw_bounding_box_go W H pairs).map (fun d => (d.srcBox, d.label)) =
      (extract_objects_go W H n pairs).map (fun c => (c.srcBox, c.label)) := by
  induction pairs with
  | nil => intro n; rfl
  | cons p rest ih =>
    intro n
    obtain ⟨box, label⟩ := p
    cases hsel : pyInStr label "Shoe" with
    | false => simp only [draw_bounding_box_go, extract_objects_go, hsel,
        Bool.false_eq_true, if_false]; exact ih n
    | true => simp only [draw_bounding_box_go, extract_objects_go, hsel,
        if_true, List.map_cons]; exact congrArg _ (ih (n + 1))

/-- Claim C9: draw_bounding_box and extract_objects apply the same selection
rule: the subsequence of (box, label) pairs drawn equals the subsequence of
pairs cropped. -/
theorem draw_extract_same_selection (W H : ℕ) (boxes : List BoundingBox)
    (labels : List String) :
    (draw_bounding_box W H boxes labels).map (fun d => (d.srcBox, d.label)) =
    (extract_objects W H boxes labels).map (fun c => (c.srcBox, c.label)) :=
  go_same_selection W H (boxes.zip labels) 1

/-- pyInt of a nonnegative rational is its floor, hence nonnegative. -/
theorem pyInt_nonneg (q : ℚ) (h : 0 ≤ q) : 0 ≤ pyInt q := by
  unfold pyInt
  rw [if_pos h]
  exact Int.floor_nonneg.mpr h

/-- Two truncated scaled coordinates with a + b at most 1 sum to at most the
image dimension. -/
theorem pyInt_scaled_pair_le (D : ℕ) (a b : ℚ) (ha : 0 ≤ a) (hb : 0 ≤ b)
    (hab : a + b ≤ 1) :
    pyInt ((D : ℚ) * a) + pyInt ((D : ℚ) * b) ≤ (D : ℤ) := by
  have hD : (0 : ℚ) ≤ (D : ℚ) := Nat.cast_nonneg D
  have hDa : (0 : ℚ) ≤ (D : ℚ) * a := mul_nonneg hD ha
  have hDb : (0 : ℚ) ≤ (D : ℚ) * b := mul_nonneg hD hb
  unfold pyInt
  rw [if_pos hDa, if_pos hDb]
  have h1 : ((⌊(D : ℚ) * a⌋ : ℚ) + (⌊(D : ℚ) * b⌋ : ℚ)) ≤
      (D : ℚ) * a + (D : ℚ) * b := add_le_add (Int.floor_le _) (Int.floor_le _)
  have h2 : (D : ℚ) * a + (D : ℚ) * b ≤ (D : ℚ) := by
    rw [← mul_add]
    calc (D : ℚ) * (a + b) ≤ (D : ℚ) * 1 := mul_le_mul_of_nonneg_left hab hD
      _ = (D : ℚ) := mul_one _
  exact_mod_cast h1.trans h2

/-- For in-range boxes, every crop rectangle the extraction loop builds stays
inside the image, whatever the crop counter starts at. -/
theorem extract_objects_go_in_bounds (W H : ℕ)
    (pairs : List (BoundingBox × String))
    (hb : ∀ p ∈ pairs, 0 ≤ p.1.Left ∧ 0 ≤ p.1.Top ∧ 0 ≤ p.1.Width ∧
      0 ≤ p.1.Height ∧ p.1.Left + p.1.Width ≤ 1 ∧ p.1.Top + p.1.Height ≤ 1) :
    ∀ n : ℕ, ∀ c ∈ extract_objects_go W H n pairs,
      0 ≤ c.cropRect.1 ∧ 0 ≤ c.cropRect.2.1 ∧
      c.cropRect.2.2.1 ≤ (W : ℤ) ∧ c.cropRect.2.2.2 ≤ (H : ℤ) := by
  induction pairs with
  | nil => intro n c hc; simp [extract_objects_go] at hc
  | cons p rest ih =>
    intro n c hc
    obtain ⟨box, label⟩ := p
    obtain ⟨hL, hT, hW, hH, hLW, hTH⟩ := hb (box, label) (List.mem_cons_self _ _)
    have hrest := fun q hq => hb q (List.mem_cons_of_mem _ hq)
    cases hsel : pyInStr label "Shoe" with
    | false =>
      rw [extract_objects_go, hsel] at hc
      simp only [Bool.false_eq_true, if_false] at hc
      exact ih hrest n c hc
    | true =>
      rw [extract_objects_go, hsel] at hc
      simp only [if_true] at hc
      rcases List.mem_cons.mp hc with h1 | h1
      · rw [h1]
        exact ⟨pyInt_nonneg _ (mul_nonneg (Nat.cast_nonneg W) hL),
          pyInt_nonneg _ (mul_nonneg (Nat.cast_nonneg H) hT),
          pyInt_scaled_pair_le W box.Left box.Width hL hW hLW,
          pyInt_scaled_pair_le H box.Top box.Height hT hH hTH⟩
      · exact ih hrest (n + 1) c h1

/-- Claim C4, counterexample: a selected box with Left outside [0, 1] is not
clamped; on a 100 by 100 image the box (Left -1/2, Top 0, Width 1/5,
Height 1/5) is cropped with rectangle (-50, 0, -30, 20), whose left edge -50
lies outside [0, 100]. -/
theorem extract_objects_unclamped_counterexample :
    (extract_objects 100 100 [⟨-1/2, 0, 1/5, 1/5⟩] ["Shoe"]).map
      (fun c => c.cropRect) = [(-50, 0, -30, 20)] ∧ (-50 : ℤ) < 0 := by
  have h1 : pyInt (((100 : ℕ) : ℚ) * (-1/2)) = -50 := by
    rw [pyInt, if_neg (by norm_num),
      (by norm_num : ((100 : ℕ) : ℚ) * (-1/2) = ((-50 : ℤ) : ℚ)),
      Int.ceil_intCast]
  have h2 : pyInt (((100 : ℕ) : ℚ) * 0) = 0 := by
    rw [pyInt, if_pos (by norm_num)]
    norm_num
  have h3 : pyInt (((100 : ℕ) : ℚ) * (1/5)) = 20 := by
    rw [pyInt, if_pos (by norm_num)]
    norm_num
  refine ⟨?_, by decide⟩
  simp only [extract_objects, List.zip_cons_cons, List.zip_nil_right,
    extract_objects_go, (by decide : pyInStr "Shoe" "Shoe" = true), if_true,
    List.map_cons, List.map_nil, h1, h2, h3]
  norm_num

/-- Claim C4 (amended): extract_objects performs no clamping, but whenever
every zipped box has nonnegative coordinates with Left + Width and
Top + Height at most 1, each crop rectangle it builds is contained in
[0, W] x [0, H]. -/
theorem extract_objects_cropRect_in_bounds (W H : ℕ) (boxes : List BoundingBox)
    (labels : List String)
    (hb : ∀ p ∈ boxes.zip labels, 0 ≤ p.1.Left ∧ 0 ≤ p.1.Top ∧
      0 ≤ p.1.Width ∧ 0 ≤ p.1.Height ∧ p.1.Left + p.1.Width ≤ 1 ∧
      p.1.Top + p.1.Height ≤ 1) :
    ∀ c ∈ extract_objects W H boxes labels,
      0 ≤ c.cropRect.1 ∧ 0 ≤ c.cropRect.2.1 ∧
      c.cropRect.2.2.1 ≤ (W : ℤ) ∧ c.cropRect.2.2.2 ≤ (H : ℤ) :=
  extract_objects_go_in_bounds W H (boxes.zip labels) hb 1

/-- Evaluation of extract_objects on a small in-range instance: one in-range
box on a 10 by 10 image, cropped to the rectangle (5, 0, 7, 5). -/
theorem extract_objects_small_eval :
    extract_objects 10 10 [⟨1/2, 0, 1/4, 1/2⟩] ["Shoe"] =
      [⟨⟨1/2, 0, 1/4, 1/2⟩, "Shoe", (5, 0, 7, 5), "extract_1.jpg"⟩] := by
  have h1 : pyInt (((10 : ℕ) : ℚ) * (1/2)) = 5 := by
    rw [pyInt, if_pos (by norm_num)]
    norm_num
  have h2 : pyInt (((10 : ℕ) : ℚ) * 0) = 0 := by
    rw [pyInt, if_pos (by norm_num)]
    norm_num
  have h3 : pyInt (((10 : ℕ) : ℚ) * (1/4)) = 2 := by
    rw [pyInt, if_pos (by norm_num)]
    norm_num
  simp only [extract_objects, List.zip_cons_cons, List.zip_nil_right,
    extract_objects_go, (by decide : pyInStr "Shoe" "Shoe" = true), if_true,
    h1, h2, h3]
  norm_num
  decide

/-- Claim C4 witness: the in-bounds theorem evaluated on a concrete in-range
box on a 10 by 10 image, whose crop rectangle is (5, 0, 7, 5). -/
theorem extract_objects_cropRect_in_bounds_witness :
    (⟨⟨1/2, 0, 1/4, 1/2⟩, "Shoe", (5, 0, 7, 5), "extract_1.jpg"⟩ :
        ExtractedCrop) ∈ extract_objects 10 10 [⟨1/2, 0, 1/4, 1/2⟩] ["Shoe"] ∧
    ((0 : ℤ) ≤ 5 ∧ (0 : ℤ) ≤ 0 ∧ (7 : ℤ) ≤ ((10 : ℕ) : ℤ) ∧
      (5 : ℤ) ≤ ((10 : ℕ) : ℤ)) :=
  ⟨by rw [extract_objects_small_eval]; exact List.mem_singleton.mpr rfl,
   extract_objects_cropRect_in_bounds 10 10 [⟨1/2, 0, 1/4, 1/2⟩] ["Shoe"]
     (by
       intro p hp
       simp only [List.zip_cons_cons, List.zip_nil_right,
         List.mem_singleton] at hp
       subst hp
       norm_num)
     ⟨⟨1/2, 0, 1/4, 1/2⟩, "Shoe", (5, 0, 7, 5), "extract_1.jpg"⟩
     (by rw [extract_objects_small_eval]; exact List.mem_singleton.mpr rfl)⟩

/-- Claim C2, counterexample: on a response payload whose message field is the
non-null string boom and which carries no embedding, create_image_embedding
does not raise; it returns ok none, the very None-as-embedding return the
claim rules out. -/
theorem create_image_embedding_error_payload_counterexample :
    (create_image_embedding
        (fun _ => Except.ok { message := some "boom", embedding := none })
        (some "img")).1 = Except.ok none :=
  rfl

/-- Claim C2 (amended): whenever the remote call answers with a payload,
message field set or not, create_image_embedding returns the embedding field
of that payload (none when the payload has none) instead of raising; the
message is only printed. -/
theorem create_image_embedding_returns_embedding_field
    (invoke_model : String → Except String BedrockResponse) (img : String)
    (resp : BedrockResponse) (h : invoke_model img = Except.ok resp) :
    (create_image_embedding invoke_model (some img)).1 =
      Except.ok resp.embedding := by
  simp [create_image_embedding, h]

/-- Claim C2 witness: the amended theorem evaluated on the constant service
answering with a message-bearing, embedding-free payload. -/
theorem create_image_embedding_returns_embedding_field_witness :
    ((fun _ : String =>
        (Except.ok (⟨some "boom", none⟩ : BedrockResponse) :
          Except String BedrockResponse)) "img" =
      Except.ok (⟨some "boom", none⟩ : BedrockResponse)) ∧
    (create_image_embedding
        (fun _ => Except.ok (⟨some "boom", none⟩ : BedrockResponse))
        (some "img")).1 =
      Except.ok (⟨some "boom", none⟩ : BedrockResponse).embedding :=
  ⟨rfl,
   create_image_embedding_returns_embedding_field
     (fun _ => Except.ok (⟨some "boom", none⟩ : BedrockResponse)) "img"
     ⟨some "boom", none⟩ rfl⟩

/-- Claim C8, counterexample: the guard of create_image_embedding tests
is-not-None, not emptiness, so the empty string input is sent to the remote
service: the request trace of the call on some empty-string holds one
request. -/
theorem create_image_embedding_empty_calls_network :
    (create_image_embedding (fun _ => Except.ok ⟨none, some [1]⟩)
      (some "")).2 = [""] :=
  rfl

/-- Claim C8 (amended): only a missing (None) image input fails with the
ValueError before any network call (empty request trace); every non-missing
input, the empty string included, is sent to the service in exactly one
invoke_model request. -/
theorem create_image_embedding_none_guard
    (invoke_model : String → Except String BedrockResponse) (s : String) :
    create_image_embedding invoke_model none =
      (Except.error "Image input is required", []) ∧
    (create_image_embedding invoke_model (some s)).2 = [s] := by
  refine ⟨rfl, ?_⟩
  cases h : invoke_model s <;> simp [create_image_embedding, h]

/-- Claim C5, counterexample: with an environment whose only failure is
reading b.jpg, the run over the keys a.jpg, b.jpg, c.jpg stops at b.jpg: only
a.jpg was processed, c.jpg never is, and the single exception string is all
that is reported. -/
theorem ingest_loop_abort_counterexample :
    ingest_loop envB ⟨[], []⟩ ["a.jpg", "b.jpg", "c.jpg"] =
      (⟨[some [1]], ["a.jpg"]⟩, some "NoSuchKey") ∧
    "c.jpg" ∉ (ingest_loop envB ⟨[], []⟩
      ["a.jpg", "b.jpg", "c.jpg"]).1.image_file_names :=
  ⟨rfl, by decide⟩

/-- Claim C5 (amended): the ingestion loop is fail-fast: as soon as an
iteration raises, the loop stops with the state reached so far and that
single exception; the keys after the failing one are never touched (the
result does not depend on them) and no aggregate failure report exists. -/
theorem ingest_loop_fail_fast (env : IngestEnv) (st : LoopState)
    (key e : String) (rest rest2 : List String)
    (h : ingest_body env st key = Except.error e) :
    ingest_loop env st (key :: rest) = (st, some e) ∧
    ingest_loop env st (key :: rest) = ingest_loop env st (key :: rest2) := by
  constructor <;> simp [ingest_loop, h]

/-- Claim C5 witness: the fail-fast theorem evaluated on the environment that
fails at b.jpg. -/
theorem ingest_loop_fail_fast_witness :
    ingest_loop envB ⟨[], []⟩ ("b.jpg" :: ["c.jpg"]) =
      (⟨[], []⟩, some "NoSuchKey") ∧
    ingest_loop envB ⟨[], []⟩ ("b.jpg" :: ["c.jpg"]) =
      ingest_loop envB ⟨[], []⟩ ("b.jpg" :: []) :=
  ingest_loop_fail_fast envB ⟨[], []⟩ "b.jpg" "NoSuchKey" ["c.jpg"] [] rfl

/-- Claim C6, counterexample: cell 3.3 supplies no document id, so each write
creates a fresh document; ingesting two records carrying the same key
img.jpg into the empty index leaves two documents with that mapping key, not
at most one. -/
theorem index_ingest_duplicate_counterexample :
    ((index_ingest_loop [("img.jpg", some [1]), ("img.jpg", some [2])]
        []).countP (fun d => d.mappingField == "img.jpg")) = 2 :=
  rfl

/-- On a write without a document id the store grows by exactly the new
document. -/
theorem client_index_none_append (st : List IndexedDoc)
    (vec : Option (List ℚ)) (mapping : String) :
    client_index st none vec mapping =
      st ++ [⟨(st.map IndexedDoc.docId).foldr max 0 + 1, vec, mapping⟩] :=
  rfl

/-- Counting documents by mapping key through the ingestion-to-index loop,
for an arbitrary starting store. -/
theorem index_ingest_loop_countP (k : String)
    (records : List (String × Option (List ℚ))) :
    ∀ st : List IndexedDoc,
      (index_ingest_loop records st).countP
          (fun d => d.mappingField == k) =
        st.countP (fun d => d.mappingField == k) +
          records.countP (fun r => r.1 == k) := by
  induction records with
  | nil => intro st; simp [index_ingest_loop]
  | cons record rest ih =>
    intro st
    rw [index_ingest_loop, ih, client_index_none_append, List.countP_append,
      List.countP_cons]
    simp only [List.countP_cons, List.countP_nil]
    ring

/-- Claim C6 (amended): indexing is append, not upsert: starting from the
empty index, the number of stored documents whose mapping field is k equals
the number of ingested records with key k, so two records with the same key
leave two documents. -/
theorem index_ingest_loop_key_count (k : String)
    (records : List (String × Option (List ℚ))) :
    (index_ingest_loop records []).countP (fun d => d.mappingField == k) =
      records.countP (fun r => r.1 == k) := by
  rw [index_ingest_loop_countP k records []]
  simp

/-- The thumbnail scale factor is nonnegative. -/
theorem thumbnailScale_nonneg (maxW maxH w h : ℕ) :
    0 ≤ thumbnailScale maxW maxH w h :=
  le_min (le_min (div_nonneg (Nat.cast_nonneg maxW) (Nat.cast_nonneg w))
    (div_nonneg (Nat.cast_nonneg maxH) (Nat.cast_nonneg h))) zero_le_one

/-- The thumbnail scale factor never exceeds one. -/
theorem thumbnailScale_le_one (maxW maxH w h : ℕ) :
    thumbnailScale maxW maxH w h ≤ 1 :=
  min_le_right _ _

/-- A dimension scaled by at most m / D and floored stays at most m. -/
theorem floor_scaled_le (D m : ℕ) (s : ℚ) (hs : s ≤ (m : ℚ) / (D : ℚ))
    (hD : 0 < D) : (⌊(D : ℚ) * s⌋).toNat ≤ m := by
  have hD2 : (0 : ℚ) < (D : ℚ) := by exact_mod_cast hD
  have h1 : (D : ℚ) * s ≤ (m : ℚ) := by
    rw [mul_comm]
    exact (le_div_iff hD2).mp hs
  rw [Int.toNat_le]
  calc ⌊(D : ℚ) * s⌋ ≤ ⌊(m : ℚ)⌋ := Int.floor_le_floor h1
    _ = (m : ℤ) := Int.floor_natCast m

/-- A dimension scaled by at most one and floored never grows. -/
theorem floor_scaled_le_self (D : ℕ) (s : ℚ) (hs : s ≤ 1) :
    (⌊(D : ℚ) * s⌋).toNat ≤ D := by
  rw [Int.toNat_le]
  calc ⌊(D : ℚ) * s⌋ ≤ ⌊(D : ℚ)⌋ := Int.floor_le_floor (by
      calc (D : ℚ) * s ≤ (D : ℚ) * 1 :=
            mul_le_mul_of_nonneg_left hs (Nat.cast_nonneg D)
        _ = (D : ℚ) := mul_one _)
    _ = (D : ℤ) := Int.floor_natCast D

/-- Flooring a nonnegative scaled dimension moves it by less than one pixel. -/
theorem floor_scaled_abs_lt (D : ℕ) (s : ℚ) (hs0 : 0 ≤ s) :
    |(((⌊(D : ℚ) * s⌋).toNat : ℕ) : ℚ) - (D : ℚ) * s| < 1 := by
  have hx : (0 : ℚ) ≤ (D : ℚ) * s := mul_nonneg (Nat.cast_nonneg D) hs0
  have hfl : (0 : ℤ) ≤ ⌊(D : ℚ) * s⌋ := Int.floor_nonneg.mpr hx
  have hcast : (((⌊(D : ℚ) * s⌋).toNat : ℕ) : ℚ) = ((⌊(D : ℚ) * s⌋ : ℤ) : ℚ) := by
    exact_mod_cast congrArg (fun z : ℤ => (z : ℚ)) (Int.toNat_of_nonneg hfl)
  rw [hcast, abs_lt]
  constructor <;>
    linarith [Int.floor_le ((D : ℚ) * s), Int.sub_one_lt_floor ((D : ℚ) * s)]

/-- When the image is already within the maxima the scale factor is one. -/
theorem thumbnailScale_eq_one (maxW maxH w h : ℕ) (hw : 0 < w) (hh : 0 < h)
    (h1 : w ≤ maxW) (h2 : h ≤ maxH) : thumbnailScale maxW maxH w h = 1 := by
  have hw2 : (0 : ℚ) < (w : ℚ) := by exact_mod_cast hw
  have hh2 : (0 : ℚ) < (h : ℚ) := by exact_mod_cast hh
  have a1 : (1 : ℚ) ≤ (maxW : ℚ) / (w : ℚ) := by
    rw [le_div_iff hw2, one_mul]
    exact_mod_cast h1
  have a2 : (1 : ℚ) ≤ (maxH : ℚ) / (h : ℚ) := by
    rw [le_div_iff hh2, one_mul]
    exact_mod_cast h2
  exact min_eq_right (le_min a1 a2)

/-- Claim C7: the resize of a decodable w by h image keeps both output
dimensions within the configured maxima, applies the single scale factor
min(maxW/w, maxH/h, 1) to both dimensions up to less than one pixel of
rounding each (aspect preserved within rounding), never upscales, and leaves
an image already within the maxima untouched. -/
theorem resize_image_dims_spec (maxW maxH w h : ℕ) (hw : 0 < w)
    (hh : 0 < h) :
    (resize_image_dims maxW maxH w h).1 ≤ maxW ∧
    (resize_image_dims maxW maxH w h).2 ≤ maxH ∧
    (resize_image_dims maxW maxH w h).1 ≤ w ∧
    (resize_image_dims maxW maxH w h).2 ≤ h ∧
    (w ≤ maxW → h ≤ maxH → resize_image_dims maxW maxH w h = (w, h)) ∧
    |((resize_image_dims maxW maxH w h).1 : ℚ) -
        (w : ℚ) * thumbnailScale maxW maxH w h| < 1 ∧
    |((resize_image_dims maxW maxH w h).2 : ℚ) -
        (h : ℚ) * thumbnailScale maxW maxH w h| < 1 := by
  have hsW : thumbnailScale maxW maxH w h ≤ (maxW : ℚ) / (w : ℚ) :=
    le_trans (min_le_left _ _) (min_le_left _ _)
  have hsH : thumbnailScale maxW maxH w h ≤ (maxH : ℚ) / (h : ℚ) :=
    le_trans (min_le_left _ _) (min_le_right _ _)
  refine ⟨floor_scaled_le w maxW _ hsW hw, floor_scaled_le h maxH _ hsH hh,
    floor_scaled_le_self w _ (thumbnailScale_le_one maxW maxH w h),
    floor_scaled_le_self h _ (thumbnailScale_le_one maxW maxH w h),
    ?_, floor_scaled_abs_lt w _ (thumbnailScale_nonneg maxW maxH w h),
    floor_scaled_abs_lt h _ (thumbnailScale_nonneg maxW maxH w h)⟩
  intro h1 h2
  rw [resize_image_dims, thumbnailScale_eq_one maxW maxH w h hw hh h1 h2]
  simp

/-- Claim C7 witness: a 6 by 3 image under 4 by 4 maxima is resized with
scale factor 2/3 to 4 by 2; the spec theorem evaluated there. -/
theorem resize_image_dims_spec_witness :
    0 < 6 ∧ 0 < 3 ∧
    ((resize_image_dims 4 4 6 3).1 ≤ 4 ∧
     (resize_image_dims 4 4 6 3).2 ≤ 4 ∧
     (resize_image_dims 4 4 6 3).1 ≤ 6 ∧
     (resize_image_dims 4 4 6 3).2 ≤ 3 ∧
     (6 ≤ 4 → 3 ≤ 4 → resize_image_dims 4 4 6 3 = (6, 3)) ∧
     |((resize_image_dims 4 4 6 3).1 : ℚ) -
        ((6 : ℕ) : ℚ) * thumbnailScale 4 4 6 3| < 1 ∧
     |((resize_image_dims 4 4 6 3).2 : ℚ) -
        ((3 : ℕ) : ℚ) * thumbnailScale 4 4 6 3| < 1) :=
  ⟨by decide, by decide, resize_image_dims_spec 4 4 6 3 (by decide) (by decide)⟩

/-- A successful iteration of the ingestion loop appends exactly the pipeline
value of its key to both parallel lists. -/
theorem ingest_body_ok (env : IngestEnv) (st : LoopState) (key : String)
    (st2 : LoopState) (hok : ingest_body env st key = Except.ok st2) :
    ∃ emb, itemEmbedding env key = some emb ∧
      st2 = ⟨st.image_embeddings ++ [emb], st.image_file_names ++ [key]⟩ := by
  cases hg : env.s3get key with
  | error e => simp [ingest_body, hg] at hok
  | ok image_data =>
    cases hr : env.resize_image image_data with
    | error e => simp [ingest_body, hg, hr] at hok
    | ok resized_image =>
      cases he : (create_image_embedding env.invoke_model
          (some (env.b64encode resized_image))).1 with
      | error e => simp [ingest_body, hg, hr, he] at hok
      | ok emb =>
        simp only [ingest_body, hg, hr, he] at hok
        injection hok with h
        exact ⟨emb, by simp [itemEmbedding, hg, hr, he], h.symm⟩

/-- The alignment invariant of the two parallel lists is preserved by the
ingestion loop from any state satisfying it. -/
theorem ingest_loop_alignment_aux (env : IngestEnv) (contents : List String) :
    ∀ st : LoopState,
      st.image_file_names.length = st.image_embeddings.length →
      (∀ p ∈ final_embeddings_dataset st, itemEmbedding env p.1 = some p.2) →
      ((ingest_loop env st contents).1.image_file_names.length =
        (ingest_loop env st contents).1.image_embeddings.length ∧
       ∀ p ∈ final_embeddings_dataset (ingest_loop env st contents).1,
         itemEmbedding env p.1 = some p.2) := by
  induction contents with
  | nil => intro st h1 h2; exact ⟨h1, h2⟩
  | cons key rest ih =>
    intro st h1 h2
    cases hok : ingest_body env st key with
    | error e =>
      rw [ingest_loop, hok]
      exact ⟨h1, h2⟩
    | ok st2 =>
      rw [ingest_loop, hok]
      obtain ⟨emb, hemb, hst2⟩ := ingest_body_ok env st key st2 hok
      subst hst2
      refine ih _ (by simp [h1]) ?_
      intro p hp
      rw [final_embeddings_dataset] at hp
      simp only at hp
      rw [List.zip_append h1] at hp
      rcases List.mem_append.mp hp with hp1 | hp1
      · exact h2 p hp1
      · rw [List.zip_cons_cons, List.zip_nil_right, List.mem_singleton] at hp1
        rw [hp1]
        exact hemb

/-- Claim C10: the ingestion loop keeps the key list and the embedding list
aligned: after any run the two lists have equal length, and every dataframe
row pairs a key with the embedding its own bytes produced (the value of the
get, resize, encode, embed pipeline on that very key). -/
theorem ingest_loop_alignment (env : IngestEnv) (contents : List String) :
    ((ingest_loop env ⟨[], []⟩ contents).1.image_file_names.length =
      (ingest_loop env ⟨[], []⟩ contents).1.image_embeddings.length) ∧
    ∀ p ∈ final_embeddings_dataset (ingest_loop env ⟨[], []⟩ contents).1,
      itemEmbedding env p.1 = some p.2 :=
  ingest_loop_alignment_aux env contents ⟨[], []⟩ rfl
    (by intro p hp; simp [final_embeddings_dataset] at hp)

/-- Claim C10 witness: the alignment theorem evaluated on the all-success
environment over two keys; the first dataframe row pairs a.jpg with the
embedding of its own pipeline value. -/
theorem ingest_loop_alignment_witness :
    ((ingest_loop envOk ⟨[], []⟩ ["a.jpg", "b.jpg"]).1.image_file_names.length =
      (ingest_loop envOk ⟨[], []⟩ ["a.jpg", "b.jpg"]).1.image_embeddings.length) ∧
    itemEmbedding envOk "a.jpg" = some (some [1, 0]) :=
  ⟨(ingest_loop_alignment envOk ["a.jpg", "b.jpg"]).1,
   (ingest_loop_alignment envOk ["a.jpg", "b.jpg"]).2 ("a.jpg", some [1, 0])
     (by
       have hds : final_embeddings_dataset
           (ingest_loop envOk ⟨[], []⟩ ["a.jpg", "b.jpg"]).1 =
           [("a.jpg", some [1, 0]), ("b.jpg", some [1, 0])] := rfl
       rw [hds]
       exact List.mem_cons_self _ _)⟩
